import Mathlib

/-!
Verification of the bootstrap statistical-estimation engine of the `cms`
repository (`cms_modeller.py`, function `execute_bootstrap`, and
`dists/freqbins_func.py`, function `get_bins`) against its natural-language
specification.

Conventions of the shallow embedding:
* Python floats are embedded as exact rationals `ℚ`; Python ints as `ℕ`/`ℤ`.
* Python expressions that can raise (`ZeroDivisionError`, `NameError`,
  `TypeError`) are embedded in `Except String`.
* `random.randint(0, n-1)` is embedded as an externally supplied stream
  `rng : ℕ → ℕ` of draws, reduced `% n` so that each draw lies in `0..n-1`;
  the stream is consumed left to right.
* The estimator functions imported from `model/bootstrap_func.py`
  (`estimatePi`, `estimateFreqSpectrum`, `estimater2decay`,
  `estimatedprimedecay`) are not part of the source tree considered here;
  they are modelled from the specification, as marked in their doc comments.
-/

namespace CMS

/-! ### Generic helpers -/

/-- Sequential effectful map over `Except`: the Python loop bodies compute a
list element-by-element and abort at the first raised exception. -/
def mapExcept (f : α → Except String β) : List α → Except String (List β)
  | [] => .ok []
  | a :: as => do
    let b ← f a
    let bs ← mapExcept f as
    .ok (b :: bs)

/-- The list of `n` resampling indices drawn by one bootstrap replicate:
the loop `for k in range(n): index = random.randint(0, n-1)` with the draw
stream `rng`. -/
def bootstrapSampleIdx (n : ℕ) (rng : ℕ → ℕ) : List ℕ :=
  (List.range n).map (fun k => rng k % n)

/-- `xs[index]` for each drawn index: the `rep_xs.append(xs[index])`
accumulation of the bootstrap loops. -/
def sampleAt [Inhabited α] (xs : List α) (idxs : List ℕ) : List α :=
  idxs.map (fun i => xs.getD i default)

/-- A constant draw stream (used to build concrete runs). -/
def rngConst (c : ℕ) : ℕ → ℕ := fun _ => c

/-- The draw stream 0,0,1,1,2,2,... (used to build concrete runs). -/
def rngHalf : ℕ → ℕ := fun t => t / 2

/-! ### Estimators from `model/bootstrap_func.py` (modelled from the spec) -/

/-- Modelled from the spec: `estimatePi` from `model/bootstrap_func.py`
(absent from the source tree). Section 4.2: "Diversity (π): weighted mean =
(Σ per-region diversity numerator) / (Σ per-region length), over the given
sample of region pairs. Division-by-zero (all sampled regions length 0) is an
error condition, not silently coerced." -/
def estimatePi (pis seqlens : List ℚ) : Except String ℚ :=
  if seqlens.sum = 0 then .error "ZeroDivisionError"
  else .ok (pis.sum / seqlens.sum)

/-- The equal-width frequency bin a site with derived count `d` and ancestral
count `a` falls into, out of `nbins` bins over the frequency range: bin index
`min (d*nbins/(d+a)) (nbins-1)` so that frequency 1 lands in the top bin. -/
def freqBinOf (nbins : ℕ) (s : ℕ × ℕ) : ℕ :=
  min (s.1 * nbins / (s.1 + s.2)) (nbins - 1)

/-- Modelled from the spec: `estimateFreqSpectrum` from
`model/bootstrap_func.py` (absent from the source tree). Section 4.2:
"partition sampled SiteRecords into nBins equal-width bins by derived-allele
frequency"; returns the per-bin site counts (`mafhist`) and the per-bin sums
of ancestral counts (`anchist`). A site is a pair (derived count, ancestral
count). -/
def estimateFreqSpectrum (sites : List (ℕ × ℕ)) (nbins : ℕ) : List ℕ × List ℕ :=
  ((List.range nbins).map (fun b => (sites.filter (fun s => freqBinOf nbins s == b)).length),
   (List.range nbins).map (fun b =>
     ((sites.filter (fun s => freqBinOf nbins s == b)).map Prod.snd).sum))

/-- Modelled from the spec: the common shape of `estimater2decay` and
`estimatedprimedecay` from `model/bootstrap_func.py` (absent from the source
tree). Section 4.2: "partition sampled SitePairRecords into distance bins
(pre-defined edges); value per bin = Σ value in bin / count in bin"; the
function returns the per-bin numerator sums and the per-bin observation
counts, the division being done by the caller. `binOf` is the fixed
assignment of a distance to a bin, derived from the pre-defined edges. -/
def decayHists (binOf : ℚ → ℕ) (nbins : ℕ) (vals dists : List ℚ) : List ℚ × List ℕ :=
  let pairs := vals.zip dists
  ((List.range nbins).map (fun b =>
     ((pairs.filter (fun p => binOf p.2 == b)).map Prod.fst).sum),
   (List.range nbins).map (fun b => (pairs.filter (fun p => binOf p.2 == b)).length))

/-- Modelled from the spec: `estimater2decay` (r² values over physical
distances). -/
def estimater2decay (binOf : ℚ → ℕ) (nbins : ℕ) (r2s physdists : List ℚ) :
    List ℚ × List ℕ :=
  decayHists binOf nbins r2s physdists

/-- Modelled from the spec: `estimatedprimedecay` (Dprime values over genetic
distances). -/
def estimatedprimedecay (binOf : ℚ → ℕ) (nbins : ℕ) (dprimes gendists : List ℚ) :
    List ℚ × List ℕ :=
  decayHists binOf nbins dprimes gendists

/-! ### `numpy` standard deviation (`np.std`, default `ddof=0`) -/

/-- Arithmetic mean of a list (`np.mean`; `0` on the empty list, matching
`ℚ` division by zero only in the vacuous case). -/
def npMean (xs : List ℚ) : ℚ := xs.sum / xs.length

/-- The square of `np.std xs` with the numpy default `ddof=0`: the mean of
squared deviations, dividing by `n`. `np.std` itself is the real square root
of this value. -/
def npVar (xs : List ℚ) : ℚ :=
  ((xs.map (fun x => (x - npMean xs) ^ 2)).sum) / xs.length

/-- The square of the Bessel-corrected sample standard deviation: squared
deviations divided by `n - 1`. -/
def sampleVar (xs : List ℚ) : ℚ :=
  ((xs.map (fun x => (x - npMean xs) ^ 2)).sum) / ((xs.length : ℚ) - 1)

/-! ### `cms_modeller.execute_bootstrap`, π section (lines 127-139) -/

/-- Lines 129-137: the list `estimates` of bootstrap replicate π means. Each
replicate `j` draws `totalregions` indices (`totalregions` being the number
of regions), picks the π numerator and the sequence length of each drawn
region, and records `estimatePi` of the resampled lists; the whole loop
aborts if any replicate raises. -/
def piBootstrapEstimates (pis seqlens : List ℚ) (nreps : ℕ) (rng : ℕ → ℕ) :
    Except String (List ℚ) :=
  mapExcept (fun j =>
    let idxs := bootstrapSampleIdx pis.length (fun k => rng (j * pis.length + k))
    estimatePi (sampleAt pis idxs) (sampleAt seqlens idxs))
    (List.range nreps)

/-! ### `cms_modeller.execute_bootstrap`, SFS section (lines 144-147, 161-168) -/

/-- Python division: raises `ZeroDivisionError` on a zero denominator, for
ints and floats alike. -/
def pydiv (num den : ℚ) : Except String ℚ :=
  if den = 0 then .error "ZeroDivisionError" else .ok (num / den)

/-- Line 145: `npoly = sum(mafhist)`. -/
def npoly (mafhist : List ℕ) : ℕ := mafhist.sum

/-- Line 146: `sfs_mean = [float(x)/npoly for x in mafhist]`; each division
raises if `npoly` is zero. -/
def sfs_mean (mafhist : List ℕ) : Except String (List ℚ) :=
  mapExcept (fun x : ℕ => pydiv (x : ℚ) (npoly mafhist : ℚ)) mafhist

/-- Line 147: `anc_mean = [anchist[i]/float(mafhist[i]) for i in
range(len(mafhist))]`; the division of bin `i` raises when `mafhist[i]` is
zero (an empty frequency bin). -/
def anc_mean (anchist mafhist : List ℕ) : Except String (List ℚ) :=
  mapExcept (fun i => pydiv (anchist.getD i 0 : ℚ) (mafhist.getD i 0 : ℚ))
    (List.range mafhist.length)

/-! ### `cms_modeller.execute_bootstrap`, LD section (lines 194-196, 201-259) -/

/-- Lines 214-216 (also 229-231, 252-254): `for ibin in range(len(hist)):
if hist[ibin] == 0: hist[ibin] = 1` — the empty-bin pseudo-count. -/
def pseudocount (hist : List ℕ) : List ℕ :=
  hist.map (fun c => if c = 0 then 1 else c)

/-- Line 195: `r2dist = [r2sums[u]/physDistHist[u] for u in
range(len(r2sums))]` — the full-sample r² decay mean. No pseudo-count is
applied before this division. -/
def r2dist_full (r2sums : List ℚ) (physDistHist : List ℕ) : Except String (List ℚ) :=
  mapExcept (fun u => pydiv (r2sums.getD u 0) (physDistHist.getD u 0 : ℚ))
    (List.range r2sums.length)

/-- Lines 203-217: one r² bootstrap replicate — resample the flattened pairs
at the original cardinality, rebin them, re-assign denominator 1 to empty
bins, then divide. After the pseudo-count every denominator is positive, so
the division is total. -/
def r2ReplicateEstimate (binOf : ℚ → ℕ) (nbins : ℕ) (flatr2 flatdists : List ℚ)
    (rng : ℕ → ℕ) : List ℚ :=
  let idxs := bootstrapSampleIdx flatr2.length rng
  let rep := estimater2decay binOf nbins (sampleAt flatr2 idxs) (sampleAt flatdists idxs)
  let counts := pseudocount rep.2
  (List.range rep.1.length).map (fun u => rep.1.getD u 0 / (counts.getD u 0 : ℚ))

/-- Lines 227-233: the full-sample Dprime decay mean — here the pseudo-count
IS applied before the division, so it is total. -/
def dprimedist_full (compLDhist : List ℚ) (genDistHist : List ℕ) : List ℚ :=
  let counts := pseudocount genDistHist
  (List.range compLDhist.length).map (fun x => compLDhist.getD x 0 / (counts.getD x 0 : ℚ))

/-- Lines 241-255: one Dprime bootstrap replicate, pseudo-counted like the r²
replicates. -/
def dprimeReplicateEstimate (binOf : ℚ → ℕ) (nbins : ℕ) (flatdprime flatgendists : List ℚ)
    (rng : ℕ → ℕ) : List ℚ :=
  let idxs := bootstrapSampleIdx flatdprime.length rng
  let rep := estimatedprimedecay binOf nbins (sampleAt flatdprime idxs)
    (sampleAt flatgendists idxs)
  let counts := pseudocount rep.2
  (List.range nbins).map (fun x => rep.1.getD x 0 / (counts.getD x 0 : ℚ))

/-- A concrete two-bin distance binning (pre-defined edge at distance 1),
used for concrete runs. -/
def ldBinDemo : ℚ → ℕ := fun d => if d < 1 then 0 else 1

/-! ### `execute_bootstrap`, per-population control flow (lines 116-122, 264-275) -/

/-- The observable steps of the per-population frequency block, lines
118-122 onward. -/
inductive Ev where
  | writeIndexLine (ipop : ℕ)
  | checkExistsStep (name : String)
  | readFreqsStep (name : String)
  | statsSection
  deriving DecidableEq

/-- Lines 118-122 and onward, in program order: the population index line is
written to the report (line 119), then the input file is checked (line 120),
the read happens only when the check succeeds (line 121, the `if` body), and
execution falls through to the statistics section (line 122 onward) in either
case — the check has no `else` and aborts nothing. -/
def freqPopTrace (ipop : ℕ) (name : String) (fileExists : Bool) : List Ev :=
  [Ev.writeIndexLine ipop, Ev.checkExistsStep name]
    ++ (if fileExists then [Ev.readFreqsStep name] else [])
    ++ [Ev.statsSection]

/-- Python name lookup in the bound-variable environment; an unbound name is
a NameError. -/
def lookupVar (env : List (String × ℕ)) (x : String) : Except String ℕ :=
  match env.find? (fun p => p.1 == x) with
  | some p => .ok p.2
  | none => .error ("NameError: name " ++ x ++ " is not defined")

/-- Line 117 (and the identical line 185): `inputfilename = inputfilenames[i]`
inside `for ipop in range(npops)`. The local names bound at that point are
`npops` and the loop variable `ipop`; `i` is assigned nowhere in
`execute_bootstrap` nor at module level, so the subscript expression raises
NameError before any file is selected. -/
def freqLoopFileChoice (inputfilenames : List String) (ipop : ℕ) : Except String String := do
  let i ← lookupVar [("npops", inputfilenames.length), ("ipop", ipop)] "i"
  match inputfilenames.get? i with
  | some f => .ok f
  | none => .error "IndexError: list index out of range"

/-- A Python value, as far as `len` is concerned. -/
inductive PyVal where
  | int (n : ℤ)
  | strList (xs : List String)

/-- Python `len`: defined on sequences, a TypeError on ints. -/
def pyLen : PyVal → Except String ℕ
  | .int _ => .error "TypeError: object of type int has no len()"
  | .strList xs => .ok xs.length

/-- Lines 267-268: `npopcomp = len(inputfilenames)` followed by
`for icomp in range(len(npopcomp))` — the iteration space of the Fst loop
applies `len` to the int `npopcomp`. -/
def fstLoopIndices (inputfilenames : List String) : Except String (List ℕ) := do
  let npopcomp ← pyLen (.strList inputfilenames)
  let n ← pyLen (.int (npopcomp : ℤ))
  .ok (List.range n)

/-! ### The report writer: the `writefile.write` calls of `execute_bootstrap` -/

/-- One fragment of a write call's payload, split where Python concatenates:
literal text (the `str()` of a number or of a list, which contains no newline
and no tab), a tab separator, or a newline terminator. -/
inductive Chunk where
  | str (s : String)
  | tab
  | nl
  deriving DecidableEq

/-- Split the concatenated output stream into report lines at the newline
markers; the final newline of a stream yields one trailing empty segment. -/
def toLines : List Chunk → List (List Chunk)
  | [] => [[]]
  | Chunk.nl :: rest => [] :: toLines rest
  | c :: rest => (c :: (toLines rest).headI) :: (toLines rest).tail

/-- The write calls of the frequency block for one population, in program
order: line 119 (`str(ipop)+'\n'`), line 128 (`str(pi_mean)+'\t'`), line 139
(`str(pi_se)+'\n'`), lines 172-175 (the four vector lines). -/
def freqPopChunks (ipop : ℕ) (piMean piSE sfsMean sfsSE ancMean ancSE : String) :
    List Chunk :=
  [.str (toString ipop), .nl,
   .str piMean, .tab,
   .str piSE, .nl,
   .str sfsMean, .nl,
   .str sfsSE, .nl,
   .str ancMean, .nl,
   .str ancSE, .nl]

/-- The write calls of the LD block for one population: line 187 (index),
line 196 (r² mean), line 222 (r² SE), line 234 (Dprime mean), line 259
(Dprime SE). -/
def ldPopChunks (ipop : ℕ) (r2Mean r2SE dpMean dpSE : String) : List Chunk :=
  [.str (toString ipop), .nl,
   .str r2Mean, .nl,
   .str r2SE, .nl,
   .str dpMean, .nl,
   .str dpSE, .nl]

/-- The write call of the Fst block for one population pair, lines 274-275:
`str(icomp)+"\t"+str(target_mean)+"\t"+str(target_se)+'\n'`. -/
def fstCompChunks (icomp : ℕ) (fstMean fstSE : String) : List Chunk :=
  [.str (toString icomp), .tab, .str fstMean, .tab, .str fstSE, .nl]

/-- The frequency section: one block per population, appended in loop order
`ipop = 0 .. npops-1` (every write appends at the end of the file; nothing
is re-read or patched). -/
def freqSectionChunks (npops : ℕ) (piMean piSE sfsMean sfsSE ancMean ancSE : ℕ → String) :
    List Chunk :=
  (List.range npops).flatMap (fun i =>
    freqPopChunks i (piMean i) (piSE i) (sfsMean i) (sfsSE i) (ancMean i) (ancSE i))

/-- The LD section, appended in loop order. -/
def ldSectionChunks (npops : ℕ) (r2Mean r2SE dpMean dpSE : ℕ → String) : List Chunk :=
  (List.range npops).flatMap (fun i =>
    ldPopChunks i (r2Mean i) (r2SE i) (dpMean i) (dpSE i))

/-- The Fst section, appended in loop order over the population pairs. -/
def fstSectionChunks (ncomp : ℕ) (fstMean fstSE : ℕ → String) : List Chunk :=
  (List.range ncomp).flatMap (fun i => fstCompChunks i (fstMean i) (fstSE i))

/-! ### `dists/freqbins_func.get_bins` (lines 53-60) -/

/-- `get_bins` from `dists/freqbins_func.py` lines 53-58, with the frequency
range already split at the dash: the string "lo-hi" parses to the pair
`(lo, hi)` (`fullrange`). Returns `(fullrange, bin_starts, bin_ends,
bin_medians)`; the fifth Python component, the rounded display strings of
`get_bin_strings`, is presentation-only and not modelled. -/
def get_bins (lo hi : ℚ) (numbins : ℕ) : (ℚ × ℚ) × List ℚ × List ℚ × List ℚ :=
  let binlen : ℚ := (hi - lo) / (numbins : ℚ)
  let bin_starts := (List.range numbins).map (fun i : ℕ => lo + binlen * (i : ℚ))
  let bin_ends := (List.range' 1 numbins).map (fun i : ℕ => lo + binlen * (i : ℚ))
  let bin_medians :=
    (List.range bin_starts.length).map
      (fun i => (bin_starts.getD i 0 + bin_ends.getD i 0) / 2)
  ((lo, hi), bin_starts, bin_ends, bin_medians)

end CMS

namespace CMS

/-! ### Helper lemmas -/

theorem getD_map_range (f : ℕ → ℚ) {n i : ℕ} (h : i < n) (d : ℚ) :
    ((List.range n).map f).getD i d = f i := by
  rw [List.getD_eq_getElem?_getD, List.getElem?_map, List.getElem?_range h]
  rfl

theorem getD_map_range1 (f : ℕ → ℚ) {n i : ℕ} (h : i < n) (d : ℚ) :
    ((List.range' 1 n).map f).getD i d = f (1 + i) := by
  rw [List.getD_eq_getElem?_getD, List.getElem?_map]
  simp [List.getElem?_range', h]

theorem mapExcept_ok_length {f : α → Except String β} :
    ∀ {l : List α} {ys : List β}, mapExcept f l = .ok ys → ys.length = l.length := by
  intro l
  induction l with
  | nil =>
    intro ys h
    simp only [mapExcept] at h
    cases h
    rfl
  | cons a as ih =>
    intro ys h
    simp only [mapExcept, bind, Except.bind] at h
    cases hfa : f a with
    | error e => rw [hfa] at h; cases h
    | ok b =>
      rw [hfa] at h
      cases hrest : mapExcept f as with
      | error e => rw [hrest] at h; cases h
      | ok bs =>
        rw [hrest] at h
        cases h
        simp [ih hrest]

theorem npVar_singleton (x : ℚ) : npVar [x] = 0 := by
  simp [npVar, npMean]

/-! ### Claim theorems -/

/-- C10: for every positive `numbins` and frequency range `[lo, hi]` (parsed
from the string "lo-hi"), `get_bins` returns exactly `numbins` contiguous
equal-width bins: `bin_starts[0] = lo`, `bin_ends[i] = bin_starts[i] +
(hi-lo)/numbins`, `bin_starts[i+1] = bin_ends[i]` for `i < numbins-1`, and
`bin_medians[i] = (bin_starts[i] + bin_ends[i])/2`. -/
theorem C10_get_bins (lo hi : ℚ) (numbins : ℕ) (h : 0 < numbins) :
    (get_bins lo hi numbins).2.1.length = numbins ∧
    (get_bins lo hi numbins).2.2.1.length = numbins ∧
    (get_bins lo hi numbins).2.2.2.length = numbins ∧
    (get_bins lo hi numbins).2.1.getD 0 0 = lo ∧
    (∀ i, i < numbins →
      (get_bins lo hi numbins).2.2.1.getD i 0
        = (get_bins lo hi numbins).2.1.getD i 0 + (hi - lo) / numbins) ∧
    (∀ i, i + 1 < numbins →
      (get_bins lo hi numbins).2.1.getD (i + 1) 0
        = (get_bins lo hi numbins).2.2.1.getD i 0) ∧
    (∀ i, i < numbins →
      (get_bins lo hi numbins).2.2.2.getD i 0
        = ((get_bins lo hi numbins).2.1.getD i 0
            + (get_bins lo hi numbins).2.2.1.getD i 0) / 2) := by
  refine ⟨by simp [get_bins], by simp [get_bins], by simp [get_bins], ?_, ?_, ?_, ?_⟩
  · simp only [get_bins]
    rw [getD_map_range _ h]
    simp
  · intro i hi2
    simp only [get_bins]
    rw [getD_map_range _ hi2, getD_map_range1 _ hi2]
    push_cast
    ring
  · intro i hi2
    simp only [get_bins]
    rw [getD_map_range _ hi2, getD_map_range1 _ (by omega : i < numbins)]
    push_cast
    ring
  · intro i hi2
    simp only [get_bins]
    rw [getD_map_range _ (by simpa using hi2)]

/-- C10 witness: the default parameters, frequency range ".05-.95" with 9
bins, satisfy the hypotheses. -/
theorem C10_get_bins_witness :
    0 < 9 ∧
    (get_bins (1/20) (19/20) 9).2.1.length = 9 ∧
    (get_bins (1/20) (19/20) 9).2.1.getD 0 0 = 1/20 ∧
    (get_bins (1/20) (19/20) 9).2.2.1.getD 0 0
      = (get_bins (1/20) (19/20) 9).2.1.getD 0 0 + (19/20 - 1/20 : ℚ) / 9 :=
  ⟨by norm_num,
   (C10_get_bins (1/20) (19/20) 9 (by norm_num)).1,
   (C10_get_bins (1/20) (19/20) 9 (by norm_num)).2.2.2.1,
   (C10_get_bins (1/20) (19/20) 9 (by norm_num)).2.2.2.2.1 0 (by norm_num)⟩

/-- C6: the diversity point estimate over a sample of (numerator, length)
region pairs equals (Σ numerators)/(Σ lengths); on a single region it is
`P/L` exactly, on regions {(2,100),(4,200)} it is 6/300 = 0.02 exactly, and a
zero total length is an error, not silently coerced. -/
theorem C6_estimatePi (P L : ℚ) (hL : L ≠ 0) :
    estimatePi [P] [L] = Except.ok (P / L) ∧
    estimatePi [2, 4] [100, 200] = Except.ok (6 / 300) ∧
    (∀ pis lens : List ℚ, lens.sum ≠ 0 →
      estimatePi pis lens = Except.ok (pis.sum / lens.sum)) ∧
    (∀ pis lens : List ℚ, lens.sum = 0 →
      estimatePi pis lens = Except.error "ZeroDivisionError") := by
  refine ⟨?_, ?_, ?_, ?_⟩
  · simp [estimatePi, hL]
  · simp [estimatePi]
    norm_num
  · intro pis lens hs
    simp [estimatePi, hs]
  · intro pis lens hs
    simp [estimatePi, hs]

/-- C6 witness: a single region with numerator 3 and length 2. -/
theorem C6_estimatePi_witness :
    (2 : ℚ) ≠ 0 ∧ estimatePi [3] [2] = Except.ok (3 / 2) :=
  ⟨by norm_num, (C6_estimatePi 3 2 (by norm_num)).1⟩

/-- C2: for a non-empty population, every bootstrap replicate draws (with
replacement) a sample of exactly the original population size, and every
drawn index is in range; the sample size itself is never resampled (the loop
bound is the original length). -/
theorem C2_resample_size {α : Type} [Inhabited α] (xs : List α) (rng : ℕ → ℕ)
    (h : xs ≠ []) :
    (sampleAt xs (bootstrapSampleIdx xs.length rng)).length = xs.length ∧
    ∀ i ∈ bootstrapSampleIdx xs.length rng, i < xs.length := by
  constructor
  · simp [sampleAt, bootstrapSampleIdx]
  · intro i hi
    simp only [bootstrapSampleIdx, List.mem_map] at hi
    obtain ⟨k, _, rfl⟩ := hi
    exact Nat.mod_lt _ (List.length_pos.mpr h)

/-- C2 witness: a concrete three-region population. -/
theorem C2_resample_size_witness :
    ([1, 2, 3] : List ℚ) ≠ [] ∧
    (sampleAt ([1, 2, 3] : List ℚ)
      (bootstrapSampleIdx ([1, 2, 3] : List ℚ).length rngHalf)).length
      = ([1, 2, 3] : List ℚ).length :=
  ⟨List.cons_ne_nil 1 [2, 3],
   (C2_resample_size ([1, 2, 3] : List ℚ) rngHalf (List.cons_ne_nil 1 [2, 3])).1⟩

/-- C1 counterexample: a concrete bootstrap run (π statistic, regions with
numerators [0,2] and lengths [1,1], R = 2 replicates, draw stream 0,0,1,1)
records the replicate values [0,2]; the reported standard error
`np.std([0,2])` is `sqrt 1 = 1` (numpy default `ddof=0`), while the sample
standard deviation of [0,2] is `sqrt 2`, so the two differ. -/
theorem C1_counterexample :
    piBootstrapEstimates [0, 2] [1, 1] 2 rngHalf = Except.ok [0, 2] ∧
    npVar [0, 2] = 1 ∧ sampleVar [0, 2] = 2 ∧
    Real.sqrt ((npVar [0, 2] : ℚ) : ℝ) ≠ Real.sqrt ((sampleVar [0, 2] : ℚ) : ℝ) := by
  have h1 : npVar [0, 2] = 1 := by
    simp [npVar, npMean]
    norm_num
  have h2 : sampleVar [0, 2] = 2 := by
    simp [sampleVar, npMean]
    norm_num
  refine ⟨?_, h1, h2, ?_⟩
  · simp [piBootstrapEstimates, mapExcept, bootstrapSampleIdx, sampleAt, estimatePi,
      rngHalf, List.range_succ]
    norm_num
    rfl
  · rw [h1, h2]
    push_cast
    rw [Real.sqrt_one]
    intro heq
    have := Real.sqrt_eq_one.mp heq.symm
    norm_num at this

/-- C1 amended: after the R bootstrap replicate values are recorded, the
reported standard error `np.std(estimates)` is the *uncorrected* (population,
divisor R) standard deviation of the R replicate values — not the
Bessel-corrected sample standard deviation — computed element-wise per bin
for the vector statistics, which use the same `np.std`; in the boundary case
R = 1 the reported standard error is exactly 0. -/
theorem C1_se_population_std (pis seqlens : List ℚ) (nreps : ℕ) (rng : ℕ → ℕ)
    (est : List ℚ) (h : piBootstrapEstimates pis seqlens nreps rng = Except.ok est) :
    est.length = nreps ∧
    npVar est * (nreps : ℚ) = (est.map (fun x => (x - npMean est) ^ 2)).sum ∧
    (nreps = 1 → Real.sqrt ((npVar est : ℚ) : ℝ) = 0) := by
  have hlen : est.length = nreps := by
    have := mapExcept_ok_length h
    simpa using this
  refine ⟨hlen, ?_, ?_⟩
  · rcases Nat.eq_zero_or_pos nreps with h0 | h0
    · subst h0
      have : est = [] := List.length_eq_zero.mp hlen
      subst this
      simp [npVar]
    · have hne : ((nreps : ℚ)) ≠ 0 := by positivity
      rw [npVar, hlen, div_mul_cancel₀ _ hne]
  · intro h1
    subst h1
    obtain ⟨x, rfl⟩ := List.length_eq_one.mp hlen
    rw [npVar_singleton]
    simp [Real.sqrt_zero]

/-- Sums of pointwise sums of naturals split. -/
theorem sum_map_add (l : List ℕ) (f g : ℕ → ℕ) :
    (l.map (fun b => f b + g b)).sum = (l.map f).sum + (l.map g).sum := by
  induction l with
  | nil => simp
  | cons a t ih => simp [ih]; omega

/-- Summing the indicator of one value over `range n`. -/
theorem sum_indicator_range (c n : ℕ) :
    ((List.range n).map (fun b => if c = b then (1 : ℕ) else 0)).sum
      = if c < n then 1 else 0 := by
  induction n with
  | zero => simp
  | succ m ih =>
    rw [List.range_succ, List.map_append, List.sum_append, ih]
    simp only [List.map_cons, List.map_nil, List.sum_cons, List.sum_nil]
    rcases Nat.lt_trichotomy c m with h | h | h
    · have h1 : c ≠ m := Nat.ne_of_lt h
      simp [h, h1, Nat.lt_succ_of_lt h]
    · simp [h]
    · have h1 : ¬ c < m := by omega
      have h2 : c ≠ m := by omega
      have h3 : ¬ c < m + 1 := by omega
      simp [h1, h2, h3]

/-- Every site falls into a bin below `nbins`. -/
theorem freqBinOf_lt {nbins : ℕ} (h : 0 < nbins) (s : ℕ × ℕ) :
    freqBinOf nbins s < nbins :=
  lt_of_le_of_lt (min_le_right _ _) (by omega)

/-- The frequency bins partition the sample: the per-bin counts sum to the
number of sampled sites. -/
theorem mafhist_sum (sites : List (ℕ × ℕ)) {nbins : ℕ} (h : 0 < nbins) :
    (estimateFreqSpectrum sites nbins).1.sum = sites.length := by
  induction sites with
  | nil => simp [estimateFreqSpectrum]
  | cons s rest ih =>
    simp only [estimateFreqSpectrum] at ih ⊢
    have hstep : ∀ b : ℕ,
        ((s :: rest).filter (fun t => freqBinOf nbins t == b)).length
          = (if freqBinOf nbins s = b then 1 else 0)
            + (rest.filter (fun t => freqBinOf nbins t == b)).length := by
      intro b
      by_cases hb : freqBinOf nbins s = b
      · simp [List.filter_cons, hb, Nat.add_comm]
      · simp [List.filter_cons, hb]
    calc ((List.range nbins).map
            (fun b => ((s :: rest).filter (fun t => freqBinOf nbins t == b)).length)).sum
        = ((List.range nbins).map
            (fun b => (if freqBinOf nbins s = b then 1 else 0)
              + (rest.filter (fun t => freqBinOf nbins t == b)).length)).sum := by
          congr 1
          exact List.map_congr_left (fun b _ => hstep b)
      _ = ((List.range nbins).map (fun b => if freqBinOf nbins s = b then 1 else 0)).sum
            + ((List.range nbins).map
                (fun b => (rest.filter (fun t => freqBinOf nbins t == b)).length)).sum := by
          exact sum_map_add _ _ _
      _ = 1 + rest.length := by
          rw [sum_indicator_range, ih, if_pos (freqBinOf_lt h s)]
      _ = (s :: rest).length := by simp [Nat.add_comm]

/-- `mapExcept` of a function that never raises. -/
theorem mapExcept_pure (g : α → β) (l : List α) :
    mapExcept (fun x => Except.ok (g x)) l = .ok (l.map g) := by
  induction l with
  | nil => rfl
  | cons a t ih => simp [mapExcept, bind, Except.bind, ih]

/-- Dividing every element of a list by a fixed rational. -/
theorem sum_map_div (xs : List ℚ) (S : ℚ) :
    (xs.map (fun x => x / S)).sum = xs.sum / S := by
  induction xs with
  | nil => simp
  | cons a t ih => simp [ih, add_div]

/-- C5: for every non-empty sample of site records (full dataset or bootstrap
replicate), the computed SFS bin proportions — each bin count divided by the
total number of sites in the sample — sum to exactly 1 over all bins. -/
theorem C5_sfs_sums_to_one (sites : List (ℕ × ℕ)) (nbins : ℕ) (h0 : 0 < nbins)
    (hne : sites ≠ []) :
    Except.map List.sum (sfs_mean (estimateFreqSpectrum sites nbins).1) = Except.ok 1 := by
  set mafhist := (estimateFreqSpectrum sites nbins).1 with hmaf
  have hsum : mafhist.sum = sites.length := mafhist_sum sites h0
  have hlen : 0 < sites.length := List.length_pos.mpr hne
  have hS : ((npoly mafhist : ℕ) : ℚ) ≠ 0 := by
    rw [npoly, hsum]
    exact Nat.cast_ne_zero.mpr hlen.ne'
  have hfun : (fun x : ℕ => pydiv (x : ℚ) ((npoly mafhist : ℕ) : ℚ))
      = (fun x : ℕ => Except.ok ((x : ℚ) / ((npoly mafhist : ℕ) : ℚ))) := by
    funext x
    simp [pydiv, hS]
  rw [sfs_mean, hfun, mapExcept_pure]
  simp only [Except.map]
  have hcomp : mafhist.map (fun x : ℕ => (x : ℚ) / ((npoly mafhist : ℕ) : ℚ))
      = (mafhist.map (Nat.cast : ℕ → ℚ)).map (fun q => q / ((npoly mafhist : ℕ) : ℚ)) := by
    rw [List.map_map]
    rfl
  rw [hcomp, sum_map_div, ← Nat.cast_list_sum, npoly, div_self (by rw [npoly] at hS; exact hS)]

/-- C5 witness: the two-site sample of the spec's end-to-end scenario family,
two bins. -/
theorem C5_sfs_sums_to_one_witness :
    0 < 2 ∧ ([(1, 1), (1, 1)] : List (ℕ × ℕ)) ≠ [] ∧
    Except.map List.sum
      (sfs_mean (estimateFreqSpectrum [(1, 1), (1, 1)] 2).1) = Except.ok 1 :=
  ⟨by norm_num, List.cons_ne_nil _ _,
   C5_sfs_sums_to_one [(1, 1), (1, 1)] 2 (by norm_num) (List.cons_ne_nil _ _)⟩

/-- C4 (code bug): on the sample [(1,1),(1,1)] with 2 frequency bins, bin 0
holds zero sites; the ancestral-proportion computation
`anchist[i]/float(mafhist[i])` of line 147 raises `ZeroDivisionError` on the
empty bin instead of recording a defined sentinel value. -/
theorem C4_anc_empty_bin_raises :
    estimateFreqSpectrum [(1, 1), (1, 1)] 2 = ([0, 2], [0, 2]) ∧
    anc_mean (estimateFreqSpectrum [(1, 1), (1, 1)] 2).2
        (estimateFreqSpectrum [(1, 1), (1, 1)] 2).1
      = Except.error "ZeroDivisionError" := by
  have hfs : estimateFreqSpectrum [(1, 1), (1, 1)] 2 = ([0, 2], [0, 2]) := by decide
  refine ⟨hfs, ?_⟩
  rw [hfs]
  simp [anc_mean, mapExcept, pydiv, bind, Except.bind, List.range_succ]

/-- C3 (code bug): with the two-bin distance binning and full-sample pair
data {(r² = 1/2, dist = 0), (1/2, 0)}, distance bin 1 has zero observations.
The full-sample r² mean of line 195 divides WITHOUT re-assigning the
denominator and raises `ZeroDivisionError`, while the r² bootstrap replicate
(lines 213-217), the full-sample Dprime mean (lines 227-233) and the Dprime
replicate (lines 251-255) apply the pseudo-count of 1 first, so there the
empty bin with numerator 0 yields estimate 0. -/
theorem C3_full_sample_r2_not_pseudocounted :
    estimater2decay ldBinDemo 2 [1/2, 1/2] [0, 0] = ([1, 0], [2, 0]) ∧
    r2dist_full [1, 0] [2, 0] = Except.error "ZeroDivisionError" ∧
    r2ReplicateEstimate ldBinDemo 2 [1/2, 1/2] [0, 0] (rngConst 0) = [1/2, 0] ∧
    dprimedist_full [1, 0] [2, 0] = [1/2, 0] ∧
    dprimeReplicateEstimate ldBinDemo 2 [1/2, 1/2] [0, 0] (rngConst 0) = [1/2, 0] := by
  have hbin0 : ldBinDemo 0 = 0 := by simp [ldBinDemo]
  have hhist : estimater2decay ldBinDemo 2 [1/2, 1/2] [0, 0] = ([1, 0], [2, 0]) := by
    simp [estimater2decay, decayHists, List.filter, hbin0, List.range_succ]
    norm_num
  refine ⟨hhist, ?_, ?_, ?_, ?_⟩
  · simp [r2dist_full, mapExcept, pydiv, bind, Except.bind, List.range_succ]
  · have hsample : sampleAt ([1/2, 1/2] : List ℚ)
        (bootstrapSampleIdx ([1/2, 1/2] : List ℚ).length (rngConst 0)) = [1/2, 1/2] := by
      simp [sampleAt, bootstrapSampleIdx, rngConst, List.range_succ]
    have hsample2 : sampleAt ([0, 0] : List ℚ)
        (bootstrapSampleIdx ([1/2, 1/2] : List ℚ).length (rngConst 0)) = [0, 0] := by
      simp [sampleAt, bootstrapSampleIdx, rngConst, List.range_succ]
    rw [r2ReplicateEstimate, hsample, hsample2, hhist]
    simp [pseudocount, List.range_succ]
  · simp [dprimedist_full, pseudocount, List.range_succ]
  · have hsample : sampleAt ([1/2, 1/2] : List ℚ)
        (bootstrapSampleIdx ([1/2, 1/2] : List ℚ).length (rngConst 0)) = [1/2, 1/2] := by
      simp [sampleAt, bootstrapSampleIdx, rngConst, List.range_succ]
    have hsample2 : sampleAt ([0, 0] : List ℚ)
        (bootstrapSampleIdx ([1/2, 1/2] : List ℚ).length (rngConst 0)) = [0, 0] := by
      simp [sampleAt, bootstrapSampleIdx, rngConst, List.range_succ]
    have hhist2 : estimatedprimedecay ldBinDemo 2 [1/2, 1/2] [0, 0] = ([1, 0], [2, 0]) := by
      rw [estimatedprimedecay, ← estimater2decay, hhist]
    rw [dprimeReplicateEstimate, hsample, hsample2, hhist2]
    simp [pseudocount, List.range_succ]

/-- C7 counterexample: for population 0 with a missing input file, the per-
population block still writes the population index line (partial output) and
still reaches the statistics section, falsifying both "no partial output (not
even the population index line) is written" and "fails before any statistic
is computed". -/
theorem C7_counterexample :
    Ev.writeIndexLine 0 ∈ freqPopTrace 0 "absent.txt" false ∧
    Ev.statsSection ∈ freqPopTrace 0 "absent.txt" false := by
  constructor <;> simp [freqPopTrace]

/-- C7 amended: the population index line is written BEFORE the existence
check; a missing input file only skips the file read (the check has no
abort), and execution continues into the statistics section, leaving the
already-written index line as partial output for that population. -/
theorem C7_no_fail_fast (ipop : ℕ) (name : String) :
    freqPopTrace ipop name false
      = [Ev.writeIndexLine ipop, Ev.checkExistsStep name, Ev.statsSection] ∧
    freqPopTrace ipop name true
      = [Ev.writeIndexLine ipop, Ev.checkExistsStep name,
         Ev.readFreqsStep name, Ev.statsSection] := by
  constructor <;> simp [freqPopTrace]

/-- C8 (code bug): the per-population loops do NOT index the file list with
the loop variable: line 117 (and 185) evaluates `inputfilenames[i]` where `i`
is unbound, raising NameError for every input list and every loop iteration
(never returning `inputfilenames[ipop]`), and the Fst loop's iteration space
`range(len(npopcomp))` (line 268) applies `len` to an int, raising TypeError,
so the `npopcomp` pair files are never iterated. -/
theorem C8_loop_index_mismatch :
    (∀ (fns : List String) (ipop : ℕ),
      freqLoopFileChoice fns ipop = .error "NameError: name i is not defined") ∧
    (∀ fns : List String,
      fstLoopIndices fns = .error "TypeError: object of type int has no len()") ∧
    freqLoopFileChoice ["a.txt", "b.txt"] 0
      = .error "NameError: name i is not defined" ∧
    fstLoopIndices ["x.txt", "y.txt"]
      = .error "TypeError: object of type int has no len()" := by
  have h1 : ∀ (fns : List String) (ipop : ℕ),
      freqLoopFileChoice fns ipop = .error "NameError: name i is not defined" := by
    intro fns ipop
    simp [freqLoopFileChoice, lookupVar, List.find?, bind, Except.bind]
  have h2 : ∀ fns : List String,
      fstLoopIndices fns = .error "TypeError: object of type int has no len()" := by
    intro fns
    simp [fstLoopIndices, pyLen, bind, Except.bind]
  exact ⟨h1, h2, h1 _ _, h2 _⟩

/-- One frequency block followed by anything splits into its six report
lines. -/
theorem toLines_freqPop (ipop : ℕ) (a b c d e f : String) (ys : List Chunk) :
    toLines (freqPopChunks ipop a b c d e f ++ ys)
      = [[Chunk.str (toString ipop)],
         [Chunk.str a, Chunk.tab, Chunk.str b],
         [Chunk.str c], [Chunk.str d], [Chunk.str e], [Chunk.str f]]
        ++ toLines ys := by
  simp [freqPopChunks, toLines]

/-- One LD block followed by anything splits into its five report lines. -/
theorem toLines_ldPop (ipop : ℕ) (a b c d : String) (ys : List Chunk) :
    toLines (ldPopChunks ipop a b c d ++ ys)
      = [[Chunk.str (toString ipop)],
         [Chunk.str a], [Chunk.str b], [Chunk.str c], [Chunk.str d]]
        ++ toLines ys := by
  simp [ldPopChunks, toLines]

/-- One Fst block followed by anything splits into its single report line. -/
theorem toLines_fstComp (icomp : ℕ) (a b : String) (ys : List Chunk) :
    toLines (fstCompChunks icomp a b ++ ys)
      = [[Chunk.str (toString icomp), Chunk.tab, Chunk.str a, Chunk.tab, Chunk.str b]]
        ++ toLines ys := by
  simp [fstCompChunks, toLines]

/-- C9: the report is a fixed line sequence per population (or pair) index in
input order — the index line first, then for each statistic family the mean
followed by the standard error: for the frequency section π mean and SE
tab-separated on one line then the SFS and ancestral mean/SE vector lines,
for the LD section the r² then Dprime mean/SE vector lines, and for the Fst
section one tab-separated scalar line; each section is the concatenation of
its per-index blocks in index order (append-only, nothing patched), plus the
trailing empty segment after the final newline. -/
theorem C9_report_layout (npops nldpops ncomp : ℕ)
    (piM piS sfsM sfsS ancM ancS r2M r2S dpM dpS fstM fstS : ℕ → String) :
    toLines (freqSectionChunks npops piM piS sfsM sfsS ancM ancS)
      = (List.range npops).flatMap (fun i =>
          [[Chunk.str (toString i)],
           [Chunk.str (piM i), Chunk.tab, Chunk.str (piS i)],
           [Chunk.str (sfsM i)], [Chunk.str (sfsS i)],
           [Chunk.str (ancM i)], [Chunk.str (ancS i)]]) ++ [[]] ∧
    toLines (ldSectionChunks nldpops r2M r2S dpM dpS)
      = (List.range nldpops).flatMap (fun i =>
          [[Chunk.str (toString i)],
           [Chunk.str (r2M i)], [Chunk.str (r2S i)],
           [Chunk.str (dpM i)], [Chunk.str (dpS i)]]) ++ [[]] ∧
    toLines (fstSectionChunks ncomp fstM fstS)
      = (List.range ncomp).flatMap (fun i =>
          [[Chunk.str (toString i), Chunk.tab,
            Chunk.str (fstM i), Chunk.tab, Chunk.str (fstS i)]]) ++ [[]] := by
  refine ⟨?_, ?_, ?_⟩
  · rw [freqSectionChunks]
    induction List.range npops with
    | nil => simp [toLines]
    | cons a t ih => simp [List.flatMap_cons, toLines_freqPop, ih]
  · rw [ldSectionChunks]
    induction List.range nldpops with
    | nil => simp [toLines]
    | cons a t ih => simp [List.flatMap_cons, toLines_ldPop, ih]
  · rw [fstSectionChunks]
    induction List.range ncomp with
    | nil => simp [toLines]
    | cons a t ih => simp [List.flatMap_cons, toLines_fstComp, ih]

/-- C1 witness: a run with R = 1 replicate records a single value and reports
standard error 0. -/
theorem C1_se_population_std_witness :
    piBootstrapEstimates [0, 2] [1, 1] 1 (rngConst 0) = Except.ok [0] ∧
    ([0] : List ℚ).length = 1 ∧
    (1 = 1 → Real.sqrt ((npVar ([0] : List ℚ) : ℚ) : ℝ) = 0) := by
  have hrun : piBootstrapEstimates [0, 2] [1, 1] 1 (rngConst 0) = Except.ok [0] := by
    simp [piBootstrapEstimates, mapExcept, bootstrapSampleIdx, sampleAt, estimatePi,
      rngConst, List.range_succ]
    rfl
  exact ⟨hrun, (C1_se_population_std [0, 2] [1, 1] 1 (rngConst 0) [0] hrun).1,
    (C1_se_population_std [0, 2] [1, 1] 1 (rngConst 0) [0] hrun).2.2⟩

end CMS
